import Mathlib

/-! Anjay-esp-idf: build-time configuration headers

The repository consists of two C headers,
`config/avsystem/coap/avs_coap_config.h` and
`config/avsystem/commons/avs_commons_config.h`.  Both contain nothing but
preprocessor directives: they include the `sdkconfig.h` generated by ESP-IDF
from Kconfig and turn its `CONFIG_*` symbols into the feature switches of the
`avs_coap` and `avs_commons` libraries.

The development below embeds the directive language the two headers use
(`#define`, `#ifdef`, `#ifndef`, `#if defined(..) || ..`, `#endif`,
`#include <sdkconfig.h>`), gives it the usual top-to-bottom semantics with a
stack of conditional groups, transcribes both headers directive by directive,
and proves properties of the set of names each header leaves defined.

The engine the switches configure (option codec, block transfer, exchange
retransmission, observation handling) is not part of the repository; the
sections on it are models written from the specification and are marked as
such definition by definition.
-/

namespace AnjayConfig

/-! ## Preprocessor model -/

/-- Preprocessing tokens that occur in replacement lists of the two headers. -/
inductive Tok where
  | intLit (n : Nat)
  | strLit (s : String)
  | ident (s : String)
  deriving DecidableEq, Repr

/-- Controlling expression of an `#if`: the headers only use `defined(X)` and `||`. -/
inductive Cond where
  | defined (name : String)
  | or (a b : Cond)
  deriving Repr

/-- One preprocessor directive.  Comments (including the commented-out
`/* #undef X */` lines) are not directives and do not appear. -/
inductive Line where
  | define (name : String) (body : List Tok)  -- `#define name body`
  | ifDefined (name : String)                 -- `#ifdef name`
  | ifNotDefined (name : String)              -- `#ifndef name`
  | ifExpr (c : Cond)                         -- `#if c`
  | endif                                     -- `#endif`
  | includeSdkconfig                          -- `#include <sdkconfig.h>`
  deriving Repr

/-- The object-like definitions in force, most recent first. -/
abbrev Defs := List (String × List Tok)

/-- The `defined(name)` operator. -/
def isDefined (d : Defs) (name : String) : Bool :=
  d.any (fun p => p.1 == name)

/-- Replacement list of `name`, if it is defined. -/
def valueOf (d : Defs) (name : String) : Option (List Tok) :=
  d.lookup name

/-- Evaluation of an `#if` expression. -/
def Cond.eval (d : Defs) : Cond → Bool
  | .defined n => isDefined d n
  | .or a b => a.eval d || b.eval d

/-- Preprocessor state: current definitions and the stack of open conditional
groups (innermost first), each recording whether its condition held. -/
structure PPState where
  defs : Defs
  conds : List Bool
  deriving Repr

/-- Directives are obeyed only when every enclosing conditional group is taken. -/
def PPState.active (st : PPState) : Bool :=
  st.conds.all id

/-- Effect of one directive.  The parameter `sdk` is the content of
`sdkconfig.h`: the list of its `#define`s in file order. -/
def step (sdk : Defs) (st : PPState) : Line → PPState
  | .define n b =>
      { defs := if st.active then (n, b) :: st.defs else st.defs, conds := st.conds }
  | .ifDefined n => { defs := st.defs, conds := isDefined st.defs n :: st.conds }
  | .ifNotDefined n => { defs := st.defs, conds := (!isDefined st.defs n) :: st.conds }
  | .ifExpr c => { defs := st.defs, conds := c.eval st.defs :: st.conds }
  | .endif => { defs := st.defs, conds := st.conds.tail }
  | .includeSdkconfig =>
      { defs := if st.active then sdk.reverse ++ st.defs else st.defs, conds := st.conds }

/-- Top-to-bottom processing of a list of directives. -/
def run (sdk : Defs) (ls : List Line) (st : PPState) : PPState :=
  ls.foldl (step sdk) st

/-- Definitions in force after preprocessing a header in a translation unit
with nothing predefined. -/
def preprocess (sdk : Defs) (hdr : List Line) : Defs :=
  (run sdk hdr { defs := [], conds := [] }).defs

/-- Names generated by Kconfig all carry the `CONFIG_` prefix. -/
def isConfigName (n : String) : Bool :=
  List.isPrefixOf "CONFIG_".data n.data

/-- A well-formed `sdkconfig.h`: it defines `CONFIG_*` symbols only. -/
def SdkConfig (sdk : Defs) : Prop :=
  sdk.all (fun p => isConfigName p.1) = true

instance (sdk : Defs) : Decidable (SdkConfig sdk) := by
  unfold SdkConfig
  infer_instance

/-- Requirement stated above `AVS_COAP_UDP_NOTIFY_CACHE_SIZE`: the replacement
list is a single positive integer literal. -/
def isPositiveIntLiteral : List Tok → Bool
  | [.intLit n] => decide (0 < n)
  | _ => false

/-! ## `avs_coap_config.h` -/

/-- Directives of `config/avsystem/coap/avs_coap_config.h`, in file order. -/
def avs_coap_config_h : List Line :=
  [ .ifNotDefined "AVS_COAP_CONFIG_H",                          -- line 20
    .define "AVS_COAP_CONFIG_H" [],                       -- line 21
    .includeSdkconfig,                                    -- line 23
    .define "WITH_AVS_COAP_BLOCK" [],                     -- line 76
    .ifDefined "CONFIG_ANJAY_WITH_OBSERVE",                   -- line 81
    .define "WITH_AVS_COAP_OBSERVE" [],                   -- line 82
    .endif,                                               -- line 83
    -- line 95: /* #undef WITH_AVS_COAP_OBSERVE_CANCEL_ON_TIMEOUT */
    .ifDefined "CONFIG_ANJAY_WITH_OBSERVE_PERSISTENCE",       -- line 103
    .define "WITH_AVS_COAP_OBSERVE_PERSISTENCE" [],       -- line 104
    .endif,                                               -- line 105
    .define "WITH_AVS_COAP_STREAMING_API" [],             -- line 110
    .define "WITH_AVS_COAP_UDP" [],                       -- line 118
    .define "WITH_AVS_COAP_TCP" [],                       -- line 126
    .ifDefined "CONFIG_ANJAY_WITH_COAP_OSCORE",               -- line 134
    .define "WITH_AVS_COAP_OSCORE" [],                    -- line 135
    .endif,                                               -- line 136
    -- line 147: /* #undef WITH_AVS_COAP_OSCORE_DRAFT_8 */
    .define "AVS_COAP_UDP_NOTIFY_CACHE_SIZE" [.intLit 4], -- line 159
    .define "WITH_AVS_COAP_DIAGNOSTIC_MESSAGES" [],       -- line 164
    .ifDefined "CONFIG_WITH_AVS_COAP_LOGS",                   -- line 171
    .define "WITH_AVS_COAP_LOGS" [],                      -- line 172
    .endif,                                               -- line 173
    .ifDefined "CONFIG_WITH_AVS_COAP_TRACE_LOGS",             -- line 180
    .define "WITH_AVS_COAP_TRACE_LOGS" [],                -- line 181
    .endif,                                               -- line 182
    -- line 193: /* #undef WITH_AVS_COAP_POISONING */
    .endif ]                                              -- line 195

/-! ## `avs_commons_config.h` -/

/-- Directives of `config/avsystem/commons/avs_commons_config.h`, in file order. -/
def avs_commons_config_h : List Line :=
  [ .ifNotDefined "AVS_COMMONS_CONFIG_H",                       -- line 17
    .define "AVS_COMMONS_CONFIG_H" [],                    -- line 18
    .includeSdkconfig,                                    -- line 20
    -- line 65: /* #undef AVS_COMMONS_BIG_ENDIAN */
    .define "AVS_COMMONS_HAVE_BUILTIN_ADD_OVERFLOW" [],   -- line 74
    .define "AVS_COMMONS_HAVE_BUILTIN_MUL_OVERFLOW" [],   -- line 83
    -- line 92: /* #undef AVS_COMMONS_HAVE_NET_IF_H */
    .define "AVS_COMMONS_HAVE_PRAGMA_DIAGNOSTIC" [],      -- line 102
    .define "AVS_COMMONS_HAVE_VISIBILITY" [],             -- line 114
    .define "AVS_COMMONS_POSIX_COMPAT_HEADER"
      [.strLit "avsystem/commons/lwip-posix-compat.h"],   -- line 141
    -- line 148: /* #undef AVS_COMMONS_WITHOUT_64BIT_FORMAT_SPECIFIERS */
    -- line 161: /* #undef AVS_COMMONS_WITHOUT_FLOAT_FORMAT_SPECIFIERS */
    -- line 175: /* #undef AVS_COMMONS_WITH_POISONING */
    .define "AVS_COMMONS_WITH_AVS_ALGORITHM" [],          -- line 187
    .define "AVS_COMMONS_WITH_AVS_BUFFER" [],             -- line 188
    .define "AVS_COMMONS_WITH_AVS_COMPAT_THREADING" [],   -- line 189
    .define "AVS_COMMONS_WITH_AVS_CRYPTO" [],             -- line 190
    .ifDefined "CONFIG_ANJAY_WITH_HTTP_DOWNLOAD",             -- line 191
    .define "AVS_COMMONS_WITH_AVS_HTTP" [],               -- line 192
    .endif,                                               -- line 193
    .define "AVS_COMMONS_WITH_AVS_LIST" [],               -- line 194
    .define "AVS_COMMONS_WITH_AVS_LOG" [],                -- line 195
    .define "AVS_COMMONS_WITH_AVS_NET" [],                -- line 196
    .ifExpr (.or (.or (.or                                -- lines 197-200
      (.defined "CONFIG_ANJAY_WITH_CORE_PERSISTENCE")
      (.defined "CONFIG_ANJAY_WITH_ATTR_STORAGE"))
      (.defined "CONFIG_ANJAY_WITH_MODULE_BOOTSTRAPPER"))
      (.defined "AVS_COMMONS_NET_WITH_TLS_SESSION_PERSISTENCE")),
    .define "AVS_COMMONS_WITH_AVS_PERSISTENCE" [],        -- line 201
    .endif,                                               -- line 202
    -- line 206: /* #undef AVS_COMMONS_WITH_AVS_RBTREE */
    .ifExpr (.or                                          -- lines 207-208
      (.defined "CONFIG_ANJAY_WITH_OBSERVE")
      (.defined "CONFIG_ANJAY_WITH_MODULE_ACCESS_CONTROL")),
    .define "AVS_COMMONS_WITH_AVS_SORTED_SET" [],         -- line 209
    .endif,                                               -- line 210
    .define "AVS_COMMONS_WITH_AVS_SCHED" [],              -- line 212
    .define "AVS_COMMONS_WITH_AVS_STREAM" [],             -- line 213
    -- line 214: /* #undef AVS_COMMONS_WITH_AVS_UNIT */
    .define "AVS_COMMONS_WITH_AVS_URL" [],                -- line 215
    .define "AVS_COMMONS_WITH_AVS_UTILS" [],              -- line 216
    -- line 217: /* #undef AVS_COMMONS_WITH_AVS_VECTOR */
    -- line 237: /* #undef AVS_COMMONS_COMPAT_THREADING_WITH_ATOMIC_SPINLOCK */
    .define "AVS_COMMONS_COMPAT_THREADING_WITH_PTHREAD" [], -- line 245
    -- line 258: /* #undef AVS_COMMONS_COMPAT_THREADING_PTHREAD_HAVE_PTHREAD_CONDATTR_SETCLOCK */
    .ifDefined "CONFIG_MBEDTLS_TLS_ENABLED",                  -- line 275
    .define "AVS_COMMONS_WITH_MBEDTLS" [],                -- line 276
    .endif,                                               -- line 277
    -- line 278: /* #undef AVS_COMMONS_WITH_OPENSSL */
    -- line 279: /* #undef AVS_COMMONS_WITH_TINYDTLS */
    -- line 289: /* #undef AVS_COMMONS_WITH_CUSTOM_TLS */
    .ifExpr (.or                                          -- line 301
      (.defined "CONFIG_ANJAY_WITH_COAP_OSCORE")
      (.defined "CONFIG_ANJAY_WITH_EST")),
    .define "AVS_COMMONS_WITH_AVS_CRYPTO_ADVANCED_FEATURES" [], -- line 302
    .endif,                                               -- line 303
    .define "AVS_COMMONS_WITH_AVS_CRYPTO_PKI" [],         -- line 315
    .define "AVS_COMMONS_WITH_AVS_CRYPTO_PSK" [],         -- line 327
    -- lines 333-492: only commented-out #undef lines
    .define "AVS_COMMONS_LOG_MAX_LINE_LENGTH" [.intLit 512], -- line 512
    .define "AVS_COMMONS_LOG_USE_GLOBAL_BUFFER" [],       -- line 524
    .define "AVS_COMMONS_LOG_WITH_DEFAULT_HANDLER" [],    -- line 532
    .ifDefined "CONFIG_ANJAY_WITH_MICRO_LOGS",                -- line 545
    .define "AVS_COMMONS_WITH_MICRO_LOGS" [],             -- line 546
    .endif,                                               -- line 547
    .ifDefined "CONFIG_AVS_COMMONS_WITH_INTERNAL_LOGS",       -- line 557
    .define "AVS_COMMONS_WITH_INTERNAL_LOGS" [],          -- line 558
    .endif,                                               -- line 559
    .ifDefined "CONFIG_AVS_COMMONS_WITH_INTERNAL_TRACE",      -- line 570
    .define "AVS_COMMONS_WITH_INTERNAL_TRACE" [],         -- line 571
    .endif,                                               -- line 572
    -- lines 579-625: only commented-out #undef lines
    .define "AVS_COMMONS_NET_WITH_IPV4" [],               -- line 638
    .ifDefined "CONFIG_LWIP_IPV6",                            -- line 646
    .define "AVS_COMMONS_NET_WITH_IPV6" [],               -- line 647
    .endif,                                               -- line 648
    -- line 655: /* #undef AVS_COMMONS_NET_WITH_DTLS */
    -- line 664: /* #undef AVS_COMMONS_NET_WITH_MBEDTLS_LOGS */
    .ifExpr (.defined "CONFIG_AVS_COMMONS_NET_WITH_POSIX_AVS_SOCKET"), -- line 674
    .define "AVS_COMMONS_NET_WITH_POSIX_AVS_SOCKET" [],   -- line 675
    .endif,                                               -- line 676
    -- line 685: /* #undef AVS_COMMONS_NET_WITH_SOCKET_LOG */
    .define "AVS_COMMONS_NET_WITH_TLS_SESSION_PERSISTENCE" [], -- line 693
    -- lines 714-785: only commented-out #undef lines
    .ifDefined "CONFIG_ANJAY_WITH_THREAD_SAFETY",             -- line 794
    .define "AVS_COMMONS_SCHED_THREAD_SAFE" [],           -- line 795
    .endif,                                               -- line 796
    .define "AVS_COMMONS_STREAM_WITH_FILE" [],            -- line 804
    -- line 815: /* #undef AVS_COMMONS_UNIT_POSIX_HAVE_BACKTRACE */
    .define "AVS_COMMONS_UTILS_WITH_POSIX_AVS_TIME" [],   -- line 828
    .define "AVS_COMMONS_UTILS_WITH_STANDARD_ALLOCATOR" [], -- line 838
    -- line 876: /* #undef AVS_COMMONS_UTILS_WITH_ALIGNFIX_ALLOCATOR */
    .endif ]                                              -- line 879

/-! ## Names each header leaves defined -/

/-- Whether `name` is defined after `avs_coap_config.h` has been preprocessed. -/
def coapDefines (sdk : Defs) (name : String) : Bool :=
  isDefined (preprocess sdk avs_coap_config_h) name

/-- Whether `name` is defined after `avs_commons_config.h` has been preprocessed. -/
def commonsDefines (sdk : Defs) (name : String) : Bool :=
  isDefined (preprocess sdk avs_commons_config_h) name

/-! ## Observation timeout policy -/

/-- Modelled from the spec: an Observation of the Observation Manager (data
model of the avs_coap engine, which is not part of this repository): token,
resource identifier, last observed sequence number and policy flags. -/
structure Observation where
  token : List Nat
  resource : List Nat
  lastSeq : Nat
  policyFlags : Nat
  deriving DecidableEq, Repr

/-- Modelled from the spec: the timeout cancellation policy of the Observation
Manager (avs_coap engine code, absent from this repository).  When the owning
exchange reaches `TimedOut`, the observation is cancelled (`none`) if and only
if the cancel-on-timeout policy is enabled; otherwise it is retained. -/
def onExchangeTimedOut (cancelOnTimeout : Bool) (obs : Observation) : Option Observation :=
  if cancelOnTimeout then none else some obs

/-! ## Sample configurations -/

/-- An `sdkconfig.h` enabling observe and observe persistence only. -/
def sdkObservePersistence : Defs :=
  [("CONFIG_ANJAY_WITH_OBSERVE", [.intLit 1]),
   ("CONFIG_ANJAY_WITH_OBSERVE_PERSISTENCE", [.intLit 1])]

/-- An `sdkconfig.h` enabling observe persistence without observe. -/
def sdkPersistenceOnly : Defs :=
  [("CONFIG_ANJAY_WITH_OBSERVE_PERSISTENCE", [.intLit 1])]

/-- An `sdkconfig.h` enabling logging, OSCORE and thread safety. -/
def sdkLogsOscore : Defs :=
  [("CONFIG_WITH_AVS_COAP_LOGS", [.intLit 1]),
   ("CONFIG_ANJAY_WITH_COAP_OSCORE", [.intLit 1]),
   ("CONFIG_ANJAY_WITH_THREAD_SAFETY", [.intLit 1])]

/-- An `sdkconfig.h` enabling the mbed TLS backend and EST. -/
def sdkMbedtlsEst : Defs :=
  [("CONFIG_MBEDTLS_TLS_ENABLED", [.intLit 1]),
   ("CONFIG_ANJAY_WITH_EST", [.intLit 1])]

/-! ## Observation Manager: notification freshness -/

/-- Modelled from the spec: size of the 24-bit Observe sequence counter space
(the avs_coap engine that holds the counter is not part of this repository). -/
def seqSpace : Nat := 2 ^ 24

/-- Modelled from the spec: the difference `b - a` of two sequence numbers,
reduced modulo 2^24 the way a 24-bit unsigned subtraction wraps (engine code
absent from this repository). -/
def seqDiff (a b : Nat) : Nat :=
  (b % seqSpace + seqSpace - a % seqSpace) % seqSpace

/-- Modelled from the spec: rollover-tolerant freshness comparison of the
Observation Manager (engine code absent from this repository).  An incoming
value is fresher when the difference modulo 2^24 is less than half the counter
space; the sequence has to increase strictly, so a zero difference is stale. -/
def isFresher (last incoming : Nat) : Bool :=
  decide (0 < seqDiff last incoming) && decide (seqDiff last incoming < seqSpace / 2)

/-- Modelled from the spec: notification handling of the Observation Manager
(engine code absent from this repository).  A fresher notification updates the
last observed sequence number and is accepted (`true`); a stale one is
discarded without side effects (`false`, Observation unchanged). -/
def onNotification (obs : Observation) (incoming : Nat) : Observation × Bool :=
  if isFresher obs.lastSeq incoming then ({ obs with lastSeq := incoming }, true)
  else (obs, false)

/-! ## Block Transfer Manager: inbound reassembly -/

/-- Modelled from the spec: one inbound block of a block-wise transfer (block
number, more-flag, payload bytes); the Block Transfer Manager is avs_coap
engine code that is not part of this repository. -/
structure Block where
  num : Nat
  more : Bool
  data : List Nat
  deriving DecidableEq, Repr

/-- Modelled from the spec: Block Context of an exchange (engine code absent
from this repository): the payload buffered so far and the block number
expected next. -/
structure BlockContext where
  buffer : List Nat
  expected : Nat
  deriving DecidableEq, Repr

/-- Modelled from the spec: failures of inbound reassembly (section 7). -/
inductive BlockError where
  | UnexpectedBlockNumber
  | PayloadTooLarge
  deriving DecidableEq, Repr

/-- Modelled from the spec: result of accepting a block (engine code absent
from this repository): either reassembly goes on with an updated context, or
it completes and the buffer is handed over as the payload, the context being
discarded. -/
inductive BlockOutcome where
  | pending (ctx : BlockContext)
  | complete (payload : List Nat)
  deriving DecidableEq, Repr

/-- Modelled from the spec: inbound step of the Block Transfer Manager (engine
code absent from this repository).  A block whose number is not the expected
next number is rejected with `UnexpectedBlockNumber`; reassembly is rejected
with `PayloadTooLarge` once the accumulated size exceeds `maxSize`; a block
with the more-flag cleared completes reassembly. -/
def receiveBlock (maxSize : Nat) (ctx : BlockContext) (b : Block) :
    Except BlockError BlockOutcome :=
  if b.num ≠ ctx.expected then .error .UnexpectedBlockNumber
  else if maxSize < ctx.buffer.length + b.data.length then .error .PayloadTooLarge
  else if b.more then .ok (.pending { buffer := ctx.buffer ++ b.data, expected := ctx.expected + 1 })
  else .ok (.complete (ctx.buffer ++ b.data))

/-- Modelled from the spec: inbound reassembly over the blocks in the order
they arrive (engine code absent from this repository).  The first failure
aborts; once reassembly has completed the context is gone and nothing more is
consumed. -/
def reassemble (maxSize : Nat) : BlockContext → List Block → Except BlockError BlockOutcome
  | ctx, [] => .ok (.pending ctx)
  | ctx, b :: bs =>
    match receiveBlock maxSize ctx b with
    | .error e => .error e
    | .ok (.complete p) => .ok (.complete p)
    | .ok (.pending ctx1) => reassemble maxSize ctx1 bs

/-- Blocks delivered in order: numbers `k, k+1, ...` and the more-flag cleared
on the last block only. -/
def deliveredInOrder : Nat → List Block → Bool
  | _, [] => false
  | k, [b] => b.num == k && !b.more
  | k, b :: b1 :: bs => b.num == k && b.more && deliveredInOrder (k + 1) (b1 :: bs)

/-- The byte sequence a list of blocks was split from. -/
def blocksPayload (bs : List Block) : List Nat :=
  (bs.map (fun b => b.data)).flatten

/-- A three-block transfer used as a sample. -/
def sampleBlocks : List Block :=
  [ { num := 0, more := true, data := [1, 2, 3, 4] },
    { num := 1, more := true, data := [5, 6, 7, 8] },
    { num := 2, more := false, data := [9] } ]

/-! ## Exchange Engine: retransmission -/

/-- Modelled from the spec: states of an Exchange (section 4.3); the Exchange
Engine is avs_coap code that is not part of this repository. -/
inductive ExchangeState where
  | Idle
  | AwaitingAck
  | AwaitingResponse
  | Completed
  | TimedOut
  | Cancelled
  deriving DecidableEq, Repr

/-- Modelled from the spec: retransmission parameters of the Exchange Engine
(engine code absent from this repository): initial timeout `T`, the fixed
jitter factor and the fixed maximum retry count. -/
structure RetryPolicy where
  initialTimeout : ℚ
  jitter : ℚ
  maxRetries : Nat
  deriving DecidableEq

/-- Modelled from the spec: the part of an Exchange that retransmission uses
(engine code absent from this repository): current state, retransmission
counter and the delay of the retransmission currently scheduled. -/
structure Exchange where
  state : ExchangeState
  retries : Nat
  delay : ℚ
  deriving DecidableEq

/-- Modelled from the spec: what can happen to an Exchange (engine code absent
from this repository).  `timerFired` carries the random draw used for the
jitter of the next delay. -/
inductive ExchangeEvent where
  | send
  | timerFired (sample : ℚ)
  | ackReceived
  | responseReceived
  | cancel
  deriving DecidableEq

/-- Modelled from the spec: what the Exchange Engine does in reaction to an
event (engine code absent from this repository). -/
inductive ExchangeAction where
  | transmit (delay : ℚ)
  | retransmit (delay : ℚ)
  | reportExchangeTimedOut
  | silent
  deriving DecidableEq

/-- Modelled from the spec: the random draw is kept within the fixed jitter
factor (engine code absent from this repository). -/
def clampJitter (jitter sample : ℚ) : ℚ :=
  max (-jitter) (min jitter sample)

/-- Modelled from the spec: terminal states of an Exchange (section 4.3). -/
def ExchangeState.terminal : ExchangeState → Bool
  | .Completed => true
  | .TimedOut => true
  | .Cancelled => true
  | _ => false

/-- Modelled from the spec: one transition of the Exchange state machine
(section 4.3; engine code absent from this repository).  Sending a
confirmable message schedules a retransmission after `T`; each retry doubles
the previous delay, randomized within the jitter factor; when the timer fires
with the retry count at its maximum the Exchange becomes `TimedOut` and
`ExchangeTimedOut` is reported; a timer or message reaching a terminal
Exchange is a silent no-op. -/
def exchangeStep (p : RetryPolicy) (ex : Exchange) : ExchangeEvent → Exchange × ExchangeAction
  | .send =>
    match ex.state with
    | .Idle =>
      ({ state := .AwaitingAck, retries := 0, delay := p.initialTimeout },
        .transmit p.initialTimeout)
    | _ => (ex, .silent)
  | .timerFired sample =>
    match ex.state with
    | .AwaitingAck =>
      if ex.retries < p.maxRetries then
        ({ state := .AwaitingAck, retries := ex.retries + 1,
           delay := ex.delay * 2 * (1 + clampJitter p.jitter sample) },
          .retransmit (ex.delay * 2 * (1 + clampJitter p.jitter sample)))
      else ({ ex with state := .TimedOut }, .reportExchangeTimedOut)
    | .AwaitingResponse => ({ ex with state := .TimedOut }, .reportExchangeTimedOut)
    | _ => (ex, .silent)
  | .ackReceived =>
    match ex.state with
    | .AwaitingAck => ({ ex with state := .AwaitingResponse }, .silent)
    | _ => (ex, .silent)
  | .responseReceived =>
    match ex.state with
    | .AwaitingResponse => ({ ex with state := .Completed }, .silent)
    | _ => (ex, .silent)
  | .cancel =>
    if ex.state.terminal then (ex, .silent) else ({ ex with state := .Cancelled }, .silent)

/-- Modelled from the spec: an Exchange reacting to a sequence of events
(engine code absent from this repository); returns the final Exchange and the
actions taken, in order. -/
def exchangeRun (p : RetryPolicy) : Exchange → List ExchangeEvent → Exchange × List ExchangeAction
  | ex, [] => (ex, [])
  | ex, ev :: evs =>
    let r := exchangeStep p ex ev
    let rest := exchangeRun p r.1 evs
    (rest.1, r.2 :: rest.2)

/-- Modelled from the spec: the retransmission schedule (engine code absent
from this repository): starting from the previous delay, each retry doubles
it and randomizes it within the jitter factor, one draw per retry. -/
def retryDelays (jitter : ℚ) : ℚ → List ℚ → List ℚ
  | _, [] => []
  | prev, r :: rs =>
    (prev * 2 * (1 + clampJitter jitter r)) ::
      retryDelays jitter (prev * 2 * (1 + clampJitter jitter r)) rs

/-- A freshly created Exchange. -/
def idleExchange : Exchange :=
  { state := .Idle, retries := 0, delay := 0 }

/-- Sample retransmission parameters: `T = 2`, jitter factor `1/2`, at most
four retries. -/
def samplePolicy : RetryPolicy :=
  { initialTimeout := 2, jitter := 1 / 2, maxRetries := 4 }

/-! ## Option Codec -/

/-- Modelled from the spec: a CoAP option, its numeric code and its value
bytes; the Option Codec is avs_coap code that is not part of this repository. -/
structure CoapOption where
  number : Nat
  value : List Nat
  deriving DecidableEq, Repr

/-- Modelled from the spec: the decode failure of the Option Codec
(section 4.1). -/
inductive CodecError where
  | MalformedMessage
  deriving DecidableEq, Repr

/-- Modelled from the spec: delta+length encoding of one field of the CoAP
option header (codec code absent from this repository): the 4-bit nibble and
the extension bytes, none below 13, one byte from 13 and two big-endian bytes
from 269. -/
def encodeField (v : Nat) : Nat × List Nat :=
  if v < 13 then (v, [])
  else if v < 269 then (13, [v - 13])
  else (14, [(v - 269) / 256, (v - 269) % 256])

/-- Modelled from the spec: encoding of one option after an option of code
`prev` (codec code absent from this repository): header byte with the delta
and length nibbles, delta extension, length extension, value. -/
def encodeOption (prev : Nat) (o : CoapOption) : List Nat :=
  ((encodeField (o.number - prev)).1 * 16 + (encodeField o.value.length).1) ::
    ((encodeField (o.number - prev)).2 ++ (encodeField o.value.length).2 ++ o.value)

/-- Modelled from the spec: encoding of options given the code of the option
before them (codec code absent from this repository). -/
def encodeFrom : Nat → List CoapOption → List Nat
  | _, [] => []
  | prev, o :: os => encodeOption prev o ++ encodeFrom o.number os

/-- Modelled from the spec: `encode(options) -> byte sequence` of the Option
Codec (codec code absent from this repository). -/
def encode (opts : List CoapOption) : List Nat :=
  encodeFrom 0 opts

/-- Modelled from the spec: decoding of one header field from its nibble and
the bytes that follow (codec code absent from this repository); a missing
extension byte or the reserved nibble 15 is a `MalformedMessage`. -/
def decodeField (nibble : Nat) (bytes : List Nat) : Except CodecError (Nat × List Nat) :=
  if nibble < 13 then .ok (nibble, bytes)
  else if nibble = 13 then
    match bytes with
    | b :: rest => .ok (b + 13, rest)
    | [] => .error .MalformedMessage
  else if nibble = 14 then
    match bytes with
    | b1 :: b2 :: rest => .ok (b1 * 256 + b2 + 269, rest)
    | _ => .error .MalformedMessage
  else .error .MalformedMessage

/-- Modelled from the spec: decoding of options given the code of the option
before them (codec code absent from this repository).  `fuel` bounds the
number of options read; each option takes at least one byte.  A truncated
option or an invalid length is a `MalformedMessage`. -/
def decodeFrom : Nat → Nat → List Nat → Except CodecError (List CoapOption)
  | _, _, [] => .ok []
  | 0, _, _ :: _ => .error .MalformedMessage
  | fuel + 1, prev, hdr :: rest =>
    match decodeField (hdr / 16) rest with
    | .error e => .error e
    | .ok (delta, rest1) =>
      match decodeField (hdr % 16) rest1 with
      | .error e => .error e
      | .ok (len, rest2) =>
        if rest2.length < len then .error .MalformedMessage
        else
          match decodeFrom fuel (prev + delta) (rest2.drop len) with
          | .error e => .error e
          | .ok os => .ok ({ number := prev + delta, value := rest2.take len } :: os)

/-- Modelled from the spec: `decode(byte sequence) -> ordered sequence of
options | error` of the Option Codec (codec code absent from this
repository); the fuel is the number of bytes, which always suffices. -/
def decode (bytes : List Nat) : Except CodecError (List CoapOption) :=
  decodeFrom bytes.length 0 bytes

/-- Valid option sequence after an option of code `prev`: codes ascending and
below 2^16, value lengths below 2^16, value bytes below 2^8. -/
def validFrom : Nat → List CoapOption → Bool
  | _, [] => true
  | prev, o :: os =>
    decide (prev ≤ o.number) && decide (o.number < 65536) &&
      decide (o.value.length < 65536) && o.value.all (fun b => decide (b < 256)) &&
      validFrom o.number os

/-- Valid option sequence: options in ascending numeric-code order. -/
def validOptions (opts : List CoapOption) : Bool :=
  validFrom 0 opts

/-- Sample options: an empty Observe option (code 6), Uri-Path twice
(code 11), a 14-byte value that needs a length extension, and a code far
enough ahead to need a two-byte delta extension. -/
def sampleOptions : List CoapOption :=
  [ { number := 6, value := [] },
    { number := 11, value := [116, 101, 109, 112] },
    { number := 11, value := [49] },
    { number := 60, value := [1, 2, 3, 4, 5, 6, 7, 8, 9, 10, 11, 12, 13, 14] },
    { number := 2048, value := [255] } ]

/-! ## Lemmas on the preprocessor model -/

@[simp] theorem isDefined_nil (n : String) : isDefined [] n = false := rfl

@[simp] theorem isDefined_cons (m : String) (b : List Tok) (d : Defs) (n : String) :
    isDefined ((m, b) :: d) n = (m == n || isDefined d n) := by
  simp [isDefined]

@[simp] theorem isDefined_append (d e : Defs) (n : String) :
    isDefined (d ++ e) n = (isDefined d n || isDefined e n) := by
  simp [isDefined]

@[simp] theorem isDefined_reverse (d : Defs) (n : String) :
    isDefined d.reverse n = isDefined d n := by
  simp [isDefined]

/-- A `#define` inside a conditional group contributes its name exactly when
the group is taken. -/
@[simp] theorem isDefined_guarded (c : Prop) [Decidable c] (m : String) (b : List Tok)
    (d : Defs) (n : String) :
    isDefined (if c then (m, b) :: d else d) n = ((decide c && m == n) || isDefined d n) := by
  by_cases h : c <;> simp [h]

/-- Looking through a conditional `#define` of a different name. -/
theorem valueOf_guarded (c : Prop) [Decidable c] (m : String) (b : List Tok)
    (d : Defs) (n : String) (h : (n == m) = false) :
    valueOf (if c then (m, b) :: d else d) n = valueOf d n := by
  by_cases hc : c <;> simp [hc, valueOf, List.lookup, h]

theorem valueOf_cons_ne (m : String) (b : List Tok) (d : Defs) (n : String)
    (h : (n == m) = false) : valueOf ((m, b) :: d) n = valueOf d n := by
  simp [valueOf, List.lookup, h]

theorem valueOf_cons_same (m : String) (b : List Tok) (d : Defs) :
    valueOf ((m, b) :: d) m = some b := by
  simp [valueOf, List.lookup]

/-- A well-formed `sdkconfig.h` defines no name without the `CONFIG_` prefix. -/
theorem isDefined_sdk_config {sdk : Defs} (h : SdkConfig sdk) {n : String}
    (hn : isConfigName n = false) : isDefined sdk n = false := by
  cases hd : isDefined sdk n with
  | false => rfl
  | true =>
    simp only [isDefined, List.any_eq_true, beq_iff_eq] at hd
    obtain ⟨p, hp, rfl⟩ := hd
    have hp2 := (List.all_eq_true.mp h) p hp
    rw [hn] at hp2
    cases hp2

/-! ## Properties of the configuration headers -/

/-- C1 (defect): with an `sdkconfig.h` that enables observe and observe
persistence, `avs_coap_config.h` defines `WITH_AVS_COAP_OBSERVE_PERSISTENCE`
while `avs_commons_config.h` leaves `AVS_COMMONS_WITH_AVS_PERSISTENCE`
undefined: the `#if` on lines 197-200 tests
`AVS_COMMONS_NET_WITH_TLS_SESSION_PERSISTENCE`, which is defined only on
line 693, so the required avs_persistence component is missing. -/
theorem C1_observe_persistence_lacks_avs_persistence :
    SdkConfig sdkObservePersistence ∧
      coapDefines sdkObservePersistence "WITH_AVS_COAP_OBSERVE_PERSISTENCE" = true ∧
      commonsDefines sdkObservePersistence "AVS_COMMONS_WITH_AVS_PERSISTENCE" = false ∧
      commonsDefines sdkObservePersistence "AVS_COMMONS_NET_WITH_TLS_SESSION_PERSISTENCE" = true := by
  decide

/-- C2: whatever `sdkconfig.h` defines, `avs_commons_config.h` defines the
seven avs_commons components that avs_coap requires unconditionally. -/
theorem C2_required_components_defined (sdk : Defs) :
    commonsDefines sdk "AVS_COMMONS_WITH_AVS_BUFFER" = true ∧
      commonsDefines sdk "AVS_COMMONS_WITH_AVS_COMPAT_THREADING" = true ∧
      commonsDefines sdk "AVS_COMMONS_WITH_AVS_LIST" = true ∧
      commonsDefines sdk "AVS_COMMONS_WITH_AVS_NET" = true ∧
      commonsDefines sdk "AVS_COMMONS_WITH_AVS_SCHED" = true ∧
      commonsDefines sdk "AVS_COMMONS_WITH_AVS_STREAM" = true ∧
      commonsDefines sdk "AVS_COMMONS_WITH_AVS_UTILS" = true := by
  simp [commonsDefines, preprocess, run, avs_commons_config_h, step, PPState.active, Cond.eval]

/-- C3: for every `sdkconfig.h`, if `avs_coap_config.h` defines
`WITH_AVS_COAP_LOGS` then `avs_commons_config.h` defines
`AVS_COMMONS_WITH_AVS_LOG`, and if `avs_coap_config.h` defines
`WITH_AVS_COAP_OSCORE` then `avs_commons_config.h` defines
`AVS_COMMONS_WITH_AVS_CRYPTO`. -/
theorem C3_conditional_components_defined (sdk : Defs) :
    (coapDefines sdk "WITH_AVS_COAP_LOGS" = true →
        commonsDefines sdk "AVS_COMMONS_WITH_AVS_LOG" = true) ∧
      (coapDefines sdk "WITH_AVS_COAP_OSCORE" = true →
        commonsDefines sdk "AVS_COMMONS_WITH_AVS_CRYPTO" = true) := by
  simp [commonsDefines, preprocess, run, avs_commons_config_h, step, PPState.active, Cond.eval]

/-- Witness for C3: a configuration in which both premises hold. -/
theorem C3_conditional_components_defined_witness :
    coapDefines sdkLogsOscore "WITH_AVS_COAP_LOGS" = true ∧
      coapDefines sdkLogsOscore "WITH_AVS_COAP_OSCORE" = true ∧
      commonsDefines sdkLogsOscore "AVS_COMMONS_WITH_AVS_LOG" = true ∧
      commonsDefines sdkLogsOscore "AVS_COMMONS_WITH_AVS_CRYPTO" = true :=
  ⟨by decide, by decide,
    (C3_conditional_components_defined sdkLogsOscore).1 (by decide),
    (C3_conditional_components_defined sdkLogsOscore).2 (by decide)⟩

/-- C4: for every `sdkconfig.h` defining only `CONFIG_*` symbols,
`avs_coap_config.h` leaves `WITH_AVS_COAP_OBSERVE_CANCEL_ON_TIMEOUT`
undefined, so under the timeout policy an Observation whose exchange times
out is retained. -/
theorem C4_cancel_on_timeout_disabled (sdk : Defs) (h : SdkConfig sdk) :
    coapDefines sdk "WITH_AVS_COAP_OBSERVE_CANCEL_ON_TIMEOUT" = false ∧
      ∀ obs : Observation,
        onExchangeTimedOut (coapDefines sdk "WITH_AVS_COAP_OBSERVE_CANCEL_ON_TIMEOUT") obs
          = some obs := by
  have h0 : coapDefines sdk "WITH_AVS_COAP_OBSERVE_CANCEL_ON_TIMEOUT" = false := by
    simp [coapDefines, preprocess, run, avs_coap_config_h, step, PPState.active, Cond.eval,
      isDefined_sdk_config h (n := "WITH_AVS_COAP_OBSERVE_CANCEL_ON_TIMEOUT") (by decide)]
  refine ⟨h0, fun obs => ?_⟩
  simp [h0, onExchangeTimedOut]

/-- Witness for C4 at a configuration enabling observe and observe persistence. -/
theorem C4_cancel_on_timeout_disabled_witness :
    SdkConfig sdkObservePersistence ∧
      coapDefines sdkObservePersistence "WITH_AVS_COAP_OBSERVE_CANCEL_ON_TIMEOUT" = false ∧
      ∀ obs : Observation,
        onExchangeTimedOut
          (coapDefines sdkObservePersistence "WITH_AVS_COAP_OBSERVE_CANCEL_ON_TIMEOUT") obs
          = some obs :=
  ⟨by decide, C4_cancel_on_timeout_disabled sdkObservePersistence (by decide)⟩

/-- C5: whatever `sdkconfig.h` defines, `avs_coap_config.h` defines
`AVS_COAP_UDP_NOTIFY_CACHE_SIZE` with replacement list `4`, a positive
integer literal. -/
theorem C5_notify_cache_size_is_four (sdk : Defs) :
    valueOf (preprocess sdk avs_coap_config_h) "AVS_COAP_UDP_NOTIFY_CACHE_SIZE"
        = some [Tok.intLit 4] ∧
      (valueOf (preprocess sdk avs_coap_config_h) "AVS_COAP_UDP_NOTIFY_CACHE_SIZE").map
        isPositiveIntLiteral = some true := by
  have hv : valueOf (preprocess sdk avs_coap_config_h) "AVS_COAP_UDP_NOTIFY_CACHE_SIZE"
      = some [Tok.intLit 4] := by
    simp [preprocess, run, avs_coap_config_h, step, PPState.active, Cond.eval,
      valueOf_guarded, valueOf_cons_ne, valueOf_cons_same]
  refine ⟨hv, ?_⟩
  rw [hv]
  rfl

/-- C6: whatever `sdkconfig.h` defines, `avs_coap_config.h` defines
`WITH_AVS_COAP_BLOCK`, so block-wise transfer is enabled in every build. -/
theorem C6_block_always_enabled (sdk : Defs) :
    coapDefines sdk "WITH_AVS_COAP_BLOCK" = true := by
  simp [coapDefines, preprocess, run, avs_coap_config_h, step, PPState.active, Cond.eval]

/-- C7: for every `sdkconfig.h` defining only `CONFIG_*` symbols, the optional
avs_coap features mirror the Kconfig switches: each of
`WITH_AVS_COAP_OBSERVE`, `WITH_AVS_COAP_OBSERVE_PERSISTENCE`,
`WITH_AVS_COAP_OSCORE`, `WITH_AVS_COAP_LOGS` and `WITH_AVS_COAP_TRACE_LOGS`
is defined by `avs_coap_config.h` iff its `CONFIG_*` switch is defined. -/
theorem C7_features_mirror_kconfig (sdk : Defs) (h : SdkConfig sdk) :
    (coapDefines sdk "WITH_AVS_COAP_OBSERVE" = true ↔
        isDefined sdk "CONFIG_ANJAY_WITH_OBSERVE" = true) ∧
      (coapDefines sdk "WITH_AVS_COAP_OBSERVE_PERSISTENCE" = true ↔
        isDefined sdk "CONFIG_ANJAY_WITH_OBSERVE_PERSISTENCE" = true) ∧
      (coapDefines sdk "WITH_AVS_COAP_OSCORE" = true ↔
        isDefined sdk "CONFIG_ANJAY_WITH_COAP_OSCORE" = true) ∧
      (coapDefines sdk "WITH_AVS_COAP_LOGS" = true ↔
        isDefined sdk "CONFIG_WITH_AVS_COAP_LOGS" = true) ∧
      (coapDefines sdk "WITH_AVS_COAP_TRACE_LOGS" = true ↔
        isDefined sdk "CONFIG_WITH_AVS_COAP_TRACE_LOGS" = true) := by
  simp [coapDefines, preprocess, run, avs_coap_config_h, step, PPState.active, Cond.eval,
    isDefined_sdk_config h (n := "WITH_AVS_COAP_OBSERVE") (by decide),
    isDefined_sdk_config h (n := "WITH_AVS_COAP_OBSERVE_PERSISTENCE") (by decide),
    isDefined_sdk_config h (n := "WITH_AVS_COAP_OSCORE") (by decide),
    isDefined_sdk_config h (n := "WITH_AVS_COAP_LOGS") (by decide),
    isDefined_sdk_config h (n := "WITH_AVS_COAP_TRACE_LOGS") (by decide)]

/-- Witness for C7 at a configuration enabling logging and OSCORE but neither
observe nor trace logs. -/
theorem C7_features_mirror_kconfig_witness :
    SdkConfig sdkLogsOscore ∧
      (coapDefines sdkLogsOscore "WITH_AVS_COAP_OBSERVE" = true ↔
        isDefined sdkLogsOscore "CONFIG_ANJAY_WITH_OBSERVE" = true) ∧
      (coapDefines sdkLogsOscore "WITH_AVS_COAP_OBSERVE_PERSISTENCE" = true ↔
        isDefined sdkLogsOscore "CONFIG_ANJAY_WITH_OBSERVE_PERSISTENCE" = true) ∧
      (coapDefines sdkLogsOscore "WITH_AVS_COAP_OSCORE" = true ↔
        isDefined sdkLogsOscore "CONFIG_ANJAY_WITH_COAP_OSCORE" = true) ∧
      (coapDefines sdkLogsOscore "WITH_AVS_COAP_LOGS" = true ↔
        isDefined sdkLogsOscore "CONFIG_WITH_AVS_COAP_LOGS" = true) ∧
      (coapDefines sdkLogsOscore "WITH_AVS_COAP_TRACE_LOGS" = true ↔
        isDefined sdkLogsOscore "CONFIG_WITH_AVS_COAP_TRACE_LOGS" = true) :=
  ⟨by decide, C7_features_mirror_kconfig sdkLogsOscore (by decide)⟩

/-- C8 (as stated, refuted): with an `sdkconfig.h` that defines only
`CONFIG_ANJAY_WITH_OBSERVE_PERSISTENCE`, `avs_coap_config.h` defines
`WITH_AVS_COAP_OBSERVE_PERSISTENCE` but not `WITH_AVS_COAP_OBSERVE`. -/
theorem C8_persistence_without_observe :
    SdkConfig sdkPersistenceOnly ∧
      coapDefines sdkPersistenceOnly "WITH_AVS_COAP_OBSERVE_PERSISTENCE" = true ∧
      coapDefines sdkPersistenceOnly "WITH_AVS_COAP_OBSERVE" = false := by
  decide

/-- C8 (amended): for every `sdkconfig.h` defining only `CONFIG_*` symbols,
`avs_coap_config.h` satisfies "observe persistence defined implies observe
defined" exactly when `sdkconfig.h` satisfies the same implication between
`CONFIG_ANJAY_WITH_OBSERVE_PERSISTENCE` and `CONFIG_ANJAY_WITH_OBSERVE`; the
header adds no guard of its own. -/
theorem C8_persistence_implies_observe_iff_kconfig (sdk : Defs) (h : SdkConfig sdk) :
    (coapDefines sdk "WITH_AVS_COAP_OBSERVE_PERSISTENCE" = true →
        coapDefines sdk "WITH_AVS_COAP_OBSERVE" = true) ↔
      (isDefined sdk "CONFIG_ANJAY_WITH_OBSERVE_PERSISTENCE" = true →
        isDefined sdk "CONFIG_ANJAY_WITH_OBSERVE" = true) := by
  simp [coapDefines, preprocess, run, avs_coap_config_h, step, PPState.active, Cond.eval,
    isDefined_sdk_config h (n := "WITH_AVS_COAP_OBSERVE") (by decide),
    isDefined_sdk_config h (n := "WITH_AVS_COAP_OBSERVE_PERSISTENCE") (by decide)]

/-- Witness for amended C8 at a configuration enabling observe together with
observe persistence. -/
theorem C8_persistence_implies_observe_iff_kconfig_witness :
    SdkConfig sdkObservePersistence ∧
      ((coapDefines sdkObservePersistence "WITH_AVS_COAP_OBSERVE_PERSISTENCE" = true →
          coapDefines sdkObservePersistence "WITH_AVS_COAP_OBSERVE" = true) ↔
        (isDefined sdkObservePersistence "CONFIG_ANJAY_WITH_OBSERVE_PERSISTENCE" = true →
          isDefined sdkObservePersistence "CONFIG_ANJAY_WITH_OBSERVE" = true)) :=
  ⟨by decide, C8_persistence_implies_observe_iff_kconfig sdkObservePersistence (by decide)⟩

/-- C9: whatever `sdkconfig.h` defines, `avs_coap_config.h` defines both
transports, `WITH_AVS_COAP_UDP` and `WITH_AVS_COAP_TCP`. -/
theorem C9_both_transports_defined (sdk : Defs) :
    coapDefines sdk "WITH_AVS_COAP_UDP" = true ∧
      coapDefines sdk "WITH_AVS_COAP_TCP" = true := by
  simp [coapDefines, preprocess, run, avs_coap_config_h, step, PPState.active, Cond.eval]

/-- C10: for every `sdkconfig.h` defining only `CONFIG_*` symbols,
`avs_commons_config.h` defines `AVS_COMMONS_SCHED_THREAD_SAFE` iff
`CONFIG_ANJAY_WITH_THREAD_SAFETY` is defined, and whenever it does it also
defines `AVS_COMMONS_WITH_AVS_COMPAT_THREADING`. -/
theorem C10_thread_safety_switch (sdk : Defs) (h : SdkConfig sdk) :
    (commonsDefines sdk "AVS_COMMONS_SCHED_THREAD_SAFE" = true ↔
        isDefined sdk "CONFIG_ANJAY_WITH_THREAD_SAFETY" = true) ∧
      (commonsDefines sdk "AVS_COMMONS_SCHED_THREAD_SAFE" = true →
        commonsDefines sdk "AVS_COMMONS_WITH_AVS_COMPAT_THREADING" = true) := by
  simp [commonsDefines, preprocess, run, avs_commons_config_h, step, PPState.active, Cond.eval,
    isDefined_sdk_config h (n := "AVS_COMMONS_SCHED_THREAD_SAFE") (by decide)]

/-- Witness for C10 at a configuration enabling thread safety. -/
theorem C10_thread_safety_switch_witness :
    SdkConfig sdkLogsOscore ∧
      commonsDefines sdkLogsOscore "AVS_COMMONS_SCHED_THREAD_SAFE" = true ∧
      commonsDefines sdkLogsOscore "AVS_COMMONS_WITH_AVS_COMPAT_THREADING" = true :=
  ⟨by decide,
    (C10_thread_safety_switch sdkLogsOscore (by decide)).1.mpr (by decide),
    (C10_thread_safety_switch sdkLogsOscore (by decide)).2
      ((C10_thread_safety_switch sdkLogsOscore (by decide)).1.mpr (by decide))⟩

/-- C15 (defect): with an empty `sdkconfig.h`, `avs_commons_config.h` ends up
defining `AVS_COMMONS_NET_WITH_TLS_SESSION_PERSISTENCE` (line 693) but not
`AVS_COMMONS_WITH_AVS_PERSISTENCE`: when the `#if` on lines 197-200 is
evaluated the TLS session persistence name is not defined yet, so the
disjunct that lists it never fires. -/
theorem C15_tls_session_persistence_tested_before_defined :
    SdkConfig [] ∧
      commonsDefines [] "AVS_COMMONS_NET_WITH_TLS_SESSION_PERSISTENCE" = true ∧
      commonsDefines [] "AVS_COMMONS_WITH_AVS_PERSISTENCE" = false := by
  decide

/-- C16: for every `sdkconfig.h` defining only `CONFIG_*` symbols,
`avs_commons_config.h` defines `AVS_COMMONS_WITH_AVS_CRYPTO_ADVANCED_FEATURES`
iff `CONFIG_ANJAY_WITH_COAP_OSCORE` or `CONFIG_ANJAY_WITH_EST` is defined, and
whenever `avs_coap_config.h` defines `WITH_AVS_COAP_OSCORE` the advanced
crypto features are defined. -/
theorem C16_crypto_advanced_features (sdk : Defs) (h : SdkConfig sdk) :
    (commonsDefines sdk "AVS_COMMONS_WITH_AVS_CRYPTO_ADVANCED_FEATURES" = true ↔
        (isDefined sdk "CONFIG_ANJAY_WITH_COAP_OSCORE" = true ∨
          isDefined sdk "CONFIG_ANJAY_WITH_EST" = true)) ∧
      (coapDefines sdk "WITH_AVS_COAP_OSCORE" = true →
        commonsDefines sdk "AVS_COMMONS_WITH_AVS_CRYPTO_ADVANCED_FEATURES" = true) := by
  have h1 := isDefined_sdk_config h (n := "AVS_COMMONS_WITH_AVS_CRYPTO_ADVANCED_FEATURES")
    (by decide)
  have h2 := isDefined_sdk_config h (n := "WITH_AVS_COAP_OSCORE") (by decide)
  have hc : coapDefines sdk "WITH_AVS_COAP_OSCORE"
      = isDefined sdk "CONFIG_ANJAY_WITH_COAP_OSCORE" := by
    simp [coapDefines, preprocess, run, avs_coap_config_h, step, PPState.active, Cond.eval, h2]
  have hm : commonsDefines sdk "AVS_COMMONS_WITH_AVS_CRYPTO_ADVANCED_FEATURES"
      = (isDefined sdk "CONFIG_ANJAY_WITH_COAP_OSCORE" ||
          isDefined sdk "CONFIG_ANJAY_WITH_EST") := by
    simp [commonsDefines, preprocess, run, avs_commons_config_h, step, PPState.active,
      Cond.eval, h1]
  rw [hc, hm]
  constructor
  · simp
  · intro ho
    simp [ho]

/-- Witness for C16 at a configuration enabling OSCORE. -/
theorem C16_crypto_advanced_features_witness :
    SdkConfig sdkLogsOscore ∧
      coapDefines sdkLogsOscore "WITH_AVS_COAP_OSCORE" = true ∧
      commonsDefines sdkLogsOscore "AVS_COMMONS_WITH_AVS_CRYPTO_ADVANCED_FEATURES" = true :=
  ⟨by decide, by decide,
    (C16_crypto_advanced_features sdkLogsOscore (by decide)).2 (by decide)⟩

/-- C17: for every `sdkconfig.h` defining only `CONFIG_*` symbols,
`avs_commons_config.h` defines none of `AVS_COMMONS_WITH_OPENSSL`,
`AVS_COMMONS_WITH_TINYDTLS`, `AVS_COMMONS_WITH_CUSTOM_TLS`, and defines
`AVS_COMMONS_WITH_MBEDTLS` iff `CONFIG_MBEDTLS_TLS_ENABLED` is defined. -/
theorem C17_single_tls_backend (sdk : Defs) (h : SdkConfig sdk) :
    commonsDefines sdk "AVS_COMMONS_WITH_OPENSSL" = false ∧
      commonsDefines sdk "AVS_COMMONS_WITH_TINYDTLS" = false ∧
      commonsDefines sdk "AVS_COMMONS_WITH_CUSTOM_TLS" = false ∧
      (commonsDefines sdk "AVS_COMMONS_WITH_MBEDTLS" = true ↔
        isDefined sdk "CONFIG_MBEDTLS_TLS_ENABLED" = true) := by
  simp [commonsDefines, preprocess, run, avs_commons_config_h, step, PPState.active, Cond.eval,
    isDefined_sdk_config h (n := "AVS_COMMONS_WITH_OPENSSL") (by decide),
    isDefined_sdk_config h (n := "AVS_COMMONS_WITH_TINYDTLS") (by decide),
    isDefined_sdk_config h (n := "AVS_COMMONS_WITH_CUSTOM_TLS") (by decide),
    isDefined_sdk_config h (n := "AVS_COMMONS_WITH_MBEDTLS") (by decide)]

/-- Witness for C17 at a configuration enabling mbed TLS. -/
theorem C17_single_tls_backend_witness :
    SdkConfig sdkMbedtlsEst ∧
      commonsDefines sdkMbedtlsEst "AVS_COMMONS_WITH_OPENSSL" = false ∧
      commonsDefines sdkMbedtlsEst "AVS_COMMONS_WITH_TINYDTLS" = false ∧
      commonsDefines sdkMbedtlsEst "AVS_COMMONS_WITH_CUSTOM_TLS" = false ∧
      (commonsDefines sdkMbedtlsEst "AVS_COMMONS_WITH_MBEDTLS" = true ↔
        isDefined sdkMbedtlsEst "CONFIG_MBEDTLS_TLS_ENABLED" = true) :=
  ⟨by decide, C17_single_tls_backend sdkMbedtlsEst (by decide)⟩

/-- C18: for every `sdkconfig.h` defining only `CONFIG_*` symbols,
`avs_commons_config.h` defines `AVS_COMMONS_UTILS_WITH_STANDARD_ALLOCATOR`
and does not define `AVS_COMMONS_UTILS_WITH_ALIGNFIX_ALLOCATOR`. -/
theorem C18_standard_allocator_only (sdk : Defs) (h : SdkConfig sdk) :
    commonsDefines sdk "AVS_COMMONS_UTILS_WITH_STANDARD_ALLOCATOR" = true ∧
      commonsDefines sdk "AVS_COMMONS_UTILS_WITH_ALIGNFIX_ALLOCATOR" = false := by
  simp [commonsDefines, preprocess, run, avs_commons_config_h, step, PPState.active, Cond.eval,
    isDefined_sdk_config h (n := "AVS_COMMONS_UTILS_WITH_ALIGNFIX_ALLOCATOR") (by decide)]

/-- Witness for C18 at a configuration enabling mbed TLS and EST. -/
theorem C18_standard_allocator_only_witness :
    SdkConfig sdkMbedtlsEst ∧
      commonsDefines sdkMbedtlsEst "AVS_COMMONS_UTILS_WITH_STANDARD_ALLOCATOR" = true ∧
      commonsDefines sdkMbedtlsEst "AVS_COMMONS_UTILS_WITH_ALIGNFIX_ALLOCATOR" = false :=
  ⟨by decide, C18_standard_allocator_only sdkMbedtlsEst (by decide)⟩

/-! ## Properties of the engine model -/

/-- The wrapped 24-bit difference is the mathematical difference modulo 2^24. -/
theorem seqDiff_eq_emod (a b : Nat) (ha : a < 2 ^ 24) (hb : b < 2 ^ 24) :
    (seqDiff a b : Int) = ((b : Int) - (a : Int)) % 16777216 := by
  have ha1 : a < 16777216 := by simpa using ha
  have hb1 : b < 16777216 := by simpa using hb
  simp only [seqDiff, seqSpace]
  norm_num
  omega

/-- C11: for a last-observed sequence number `a` and an incoming value `b`,
both below 2^24, the notification is accepted and the Observation's sequence
number set to `b` iff the difference `(b - a) mod 2^24` is positive and less
than 2^23; otherwise it is discarded and the Observation is unchanged. -/
theorem C11_notification_freshness (obs : Observation) (b : Nat)
    (ha : obs.lastSeq < 2 ^ 24) (hb : b < 2 ^ 24) :
    (onNotification obs b = ({ obs with lastSeq := b }, true) ↔
        (0 < ((b : Int) - (obs.lastSeq : Int)) % 16777216 ∧
          ((b : Int) - (obs.lastSeq : Int)) % 16777216 < 8388608)) ∧
      (¬ (0 < ((b : Int) - (obs.lastSeq : Int)) % 16777216 ∧
          ((b : Int) - (obs.lastSeq : Int)) % 16777216 < 8388608) →
        onNotification obs b = (obs, false)) := by
  have hd := seqDiff_eq_emod obs.lastSeq b ha hb
  rw [← hd]
  have hf : isFresher obs.lastSeq b = true ↔
      (0 < (seqDiff obs.lastSeq b : Int) ∧ (seqDiff obs.lastSeq b : Int) < 8388608) := by
    simp only [isFresher, seqSpace, Bool.and_eq_true, decide_eq_true_eq]
    norm_num
  constructor
  · constructor
    · intro h
      by_cases hc : isFresher obs.lastSeq b = true
      · exact hf.mp hc
      · simp [onNotification, hc] at h
    · intro h
      simp [onNotification, hf.mpr h]
  · intro h
    have hc : ¬ isFresher obs.lastSeq b = true := fun hc => h (hf.mp hc)
    simp [onNotification, hc]

/-- Witness for C11: the counter rolls over from 2^24 - 1 to 3. -/
theorem C11_notification_freshness_witness :
    onNotification { token := [1], resource := [2], lastSeq := 16777215, policyFlags := 0 } 3
      = ({ token := [1], resource := [2], lastSeq := 3, policyFlags := 0 }, true) :=
  (C11_notification_freshness
    { token := [1], resource := [2], lastSeq := 16777215, policyFlags := 0 } 3
    (by decide) (by decide)).1.mpr ⟨by decide, by decide⟩

/-- Reassembly of blocks delivered in order, from any context: it completes
with the buffered bytes followed by the payload of the blocks. -/
theorem reassemble_inOrder (maxSize : Nat) (bs : List Block) :
    ∀ ctx : BlockContext, deliveredInOrder ctx.expected bs = true →
      ctx.buffer.length + (blocksPayload bs).length ≤ maxSize →
      reassemble maxSize ctx bs = .ok (.complete (ctx.buffer ++ blocksPayload bs)) := by
  induction bs with
  | nil => intro ctx h; simp [deliveredInOrder] at h
  | cons b rest ih =>
    intro ctx h hsize
    cases rest with
    | nil =>
      simp only [deliveredInOrder, Bool.and_eq_true, beq_iff_eq, Bool.not_eq_true'] at h
      simp only [blocksPayload, List.map, List.flatten, List.append_nil] at hsize ⊢
      have hlt : ¬ maxSize < ctx.buffer.length + b.data.length := by omega
      simp [reassemble, receiveBlock, h.1, h.2, hlt]
    | cons b1 rest1 =>
      simp only [deliveredInOrder, Bool.and_eq_true, beq_iff_eq] at h
      obtain ⟨⟨hnum, hmore⟩, hrest⟩ := h
      have hp : blocksPayload (b :: b1 :: rest1) = b.data ++ blocksPayload (b1 :: rest1) := by
        simp [blocksPayload]
      rw [hp] at hsize ⊢
      simp only [List.length_append] at hsize
      have hlt : ¬ maxSize < ctx.buffer.length + b.data.length := by omega
      have hstep : receiveBlock maxSize ctx b
          = .ok (.pending { buffer := ctx.buffer ++ b.data, expected := ctx.expected + 1 }) := by
        simp [receiveBlock, hnum, hmore, hlt]
      rw [reassemble, hstep]
      simp only
      rw [ih { buffer := ctx.buffer ++ b.data, expected := ctx.expected + 1 } hrest
        (by simp only [List.length_append]; omega)]
      simp

/-- Before the last block arrives reassembly is still pending, with every
earlier block buffered. -/
theorem reassemble_inOrder_dropLast (maxSize : Nat) (bs : List Block) :
    ∀ ctx : BlockContext, deliveredInOrder ctx.expected bs = true →
      ctx.buffer.length + (blocksPayload bs).length ≤ maxSize →
      reassemble maxSize ctx bs.dropLast
        = .ok (.pending { buffer := ctx.buffer ++ blocksPayload bs.dropLast,
                          expected := ctx.expected + (bs.length - 1) }) := by
  induction bs with
  | nil => intro ctx h; simp [deliveredInOrder] at h
  | cons b rest ih =>
    intro ctx h hsize
    cases rest with
    | nil => simp [reassemble, blocksPayload]
    | cons b1 rest1 =>
      simp only [deliveredInOrder, Bool.and_eq_true, beq_iff_eq] at h
      obtain ⟨⟨hnum, hmore⟩, hrest⟩ := h
      have hp : blocksPayload (b :: b1 :: rest1) = b.data ++ blocksPayload (b1 :: rest1) := by
        simp [blocksPayload]
      rw [hp] at hsize
      simp only [List.length_append] at hsize
      have hlt : ¬ maxSize < ctx.buffer.length + b.data.length := by omega
      have hstep : receiveBlock maxSize ctx b
          = .ok (.pending { buffer := ctx.buffer ++ b.data, expected := ctx.expected + 1 }) := by
        simp [receiveBlock, hnum, hmore, hlt]
      have hd : (b :: b1 :: rest1).dropLast = b :: (b1 :: rest1).dropLast := by
        simp [List.dropLast]
      rw [hd, reassemble, hstep]
      simp only
      rw [ih { buffer := ctx.buffer ++ b.data, expected := ctx.expected + 1 } hrest
        (by simp only [List.length_append]; omega)]
      have hp2 : blocksPayload (b :: (b1 :: rest1).dropLast)
          = b.data ++ blocksPayload (b1 :: rest1).dropLast := by
        simp [blocksPayload]
      rw [hp2]
      simp only [List.append_assoc, List.length_cons]
      congr 3
      omega

/-- C14: blocks delivered in order with numbers 0, 1, 2, ... and the more-flag
cleared on the last block only, of total size within the maximum, reassemble
to exactly the original byte sequence; reassembly is still pending before the
last block and completes on it; and a block whose number is not the expected
next number is rejected with `UnexpectedBlockNumber`. -/
theorem C14_block_reassembly_exact (maxSize : Nat) (bs : List Block)
    (horder : deliveredInOrder 0 bs = true)
    (hsize : (blocksPayload bs).length ≤ maxSize) :
    reassemble maxSize { buffer := [], expected := 0 } bs
        = .ok (.complete (blocksPayload bs)) ∧
      reassemble maxSize { buffer := [], expected := 0 } bs.dropLast
        = .ok (.pending { buffer := blocksPayload bs.dropLast, expected := bs.length - 1 }) ∧
      ∀ (ctx : BlockContext) (b : Block), b.num ≠ ctx.expected →
        receiveBlock maxSize ctx b = .error .UnexpectedBlockNumber := by
  refine ⟨?_, ?_, ?_⟩
  · have h := reassemble_inOrder maxSize bs { buffer := [], expected := 0 } horder
      (by simpa using hsize)
    simpa using h
  · have h := reassemble_inOrder_dropLast maxSize bs { buffer := [], expected := 0 } horder
      (by simpa using hsize)
    simpa using h
  · intro ctx b hne
    simp [receiveBlock, hne]

/-- Witness for C14 on a three-block transfer of nine bytes. -/
theorem C14_block_reassembly_exact_witness :
    deliveredInOrder 0 sampleBlocks = true ∧
      (blocksPayload sampleBlocks).length ≤ 16 ∧
      reassemble 16 { buffer := [], expected := 0 } sampleBlocks
        = .ok (.complete [1, 2, 3, 4, 5, 6, 7, 8, 9]) :=
  ⟨by decide, by decide, (C14_block_reassembly_exact 16 sampleBlocks (by decide) (by decide)).1⟩

/-- The clamped draw is at least minus the jitter factor. -/
theorem neg_le_clampJitter (j r : ℚ) : -j ≤ clampJitter j r :=
  le_max_left _ _

/-- The clamped draw is at most the jitter factor. -/
theorem clampJitter_le (j r : ℚ) (hj : 0 ≤ j) : clampJitter j r ≤ j :=
  max_le (by linarith) (min_le_left _ _)

/-- Bounds on the delay of a retry relative to the previous delay. -/
theorem retry_delay_bounds (j r prev : ℚ) (hj : 0 ≤ j) (hprev : 0 ≤ prev) :
    prev * 2 * (1 - j) ≤ prev * 2 * (1 + clampJitter j r) ∧
      prev * 2 * (1 + clampJitter j r) ≤ prev * 2 * (1 + j) := by
  have h1 := neg_le_clampJitter j r
  have h2 := clampJitter_le j r hj
  have hp : 0 ≤ prev * 2 := by linarith
  constructor
  · exact mul_le_mul_of_nonneg_left (by linarith) hp
  · exact mul_le_mul_of_nonneg_left (by linarith) hp

/-- One transition keeps the retry count within the maximum and the delay
non-negative. -/
theorem exchangeStep_inv (p : RetryPolicy) (hT : 0 ≤ p.initialTimeout) (hj1 : p.jitter ≤ 1)
    (ex : Exchange) (ev : ExchangeEvent)
    (h : ex.retries ≤ p.maxRetries ∧ 0 ≤ ex.delay) :
    (exchangeStep p ex ev).1.retries ≤ p.maxRetries ∧ 0 ≤ (exchangeStep p ex ev).1.delay := by
  obtain ⟨hr, hd⟩ := h
  cases ev with
  | send =>
    cases hs : ex.state <;> simp [exchangeStep, hs, hr, hd, hT]
  | timerFired r =>
    cases hs : ex.state <;> simp only [exchangeStep, hs] <;> try exact ⟨hr, hd⟩
    by_cases hlt : ex.retries < p.maxRetries
    · simp only [hlt, if_true]
      refine ⟨hlt, ?_⟩
      have h1 := neg_le_clampJitter p.jitter r
      exact mul_nonneg (by linarith) (by linarith)
    · simp only [hlt, if_false]
      exact ⟨hr, hd⟩
  | ackReceived =>
    cases hs : ex.state <;> simp [exchangeStep, hs, hr, hd]
  | responseReceived =>
    cases hs : ex.state <;> simp [exchangeStep, hs, hr, hd]
  | cancel =>
    cases hs : ex.state <;> simp [exchangeStep, hs, hr, hd, ExchangeState.terminal]

/-- The invariant holds after any sequence of events. -/
theorem exchangeRun_inv (p : RetryPolicy) (hT : 0 ≤ p.initialTimeout) (hj1 : p.jitter ≤ 1)
    (evs : List ExchangeEvent) :
    ∀ ex : Exchange, ex.retries ≤ p.maxRetries ∧ 0 ≤ ex.delay →
      (exchangeRun p ex evs).1.retries ≤ p.maxRetries ∧ 0 ≤ (exchangeRun p ex evs).1.delay := by
  induction evs with
  | nil => intro ex h; simpa [exchangeRun] using h
  | cons ev rest ih =>
    intro ex h
    simp only [exchangeRun]
    exact ih _ (exchangeStep_inv p hT hj1 ex ev h)

/-- A terminal Exchange ignores every event. -/
theorem exchangeStep_terminal (p : RetryPolicy) (ex : Exchange) (ev : ExchangeEvent)
    (h : ex.state.terminal = true) : exchangeStep p ex ev = (ex, .silent) := by
  cases ev <;> cases hs : ex.state <;>
    simp_all [exchangeStep, ExchangeState.terminal]

/-- A terminal Exchange stays as it is and acts on nothing. -/
theorem exchangeRun_terminal (p : RetryPolicy) (evs : List ExchangeEvent) :
    ∀ ex : Exchange, ex.state.terminal = true →
      exchangeRun p ex evs = (ex, evs.map (fun _ => ExchangeAction.silent)) := by
  induction evs with
  | nil => intro ex _; rfl
  | cons ev rest ih =>
    intro ex h
    simp only [exchangeRun, exchangeStep_terminal p ex ev h, ih ex h, List.map_cons]

/-- Running two event sequences one after the other. -/
theorem exchangeRun_append (p : RetryPolicy) (a : List ExchangeEvent) :
    ∀ (ex : Exchange) (b : List ExchangeEvent),
      exchangeRun p ex (a ++ b)
        = ((exchangeRun p (exchangeRun p ex a).1 b).1,
            (exchangeRun p ex a).2 ++ (exchangeRun p (exchangeRun p ex a).1 b).2) := by
  induction a with
  | nil => intro ex b; simp [exchangeRun]
  | cons ev rest ih =>
    intro ex b
    have h := ih (exchangeStep p ex ev).1 b
    rw [List.cons_append]
    simp only [exchangeRun]
    rw [h]
    simp

/-- The schedule has one delay per draw. -/
theorem retryDelays_length (j : ℚ) (rs : List ℚ) :
    ∀ prev : ℚ, (retryDelays j prev rs).length = rs.length := by
  induction rs with
  | nil => intro prev; rfl
  | cons r rest ih => intro prev; simp [retryDelays, ih]

/-- Each delay of the schedule lies within the jitter bounds around twice the
delay before it. -/
theorem retryDelays_chain (j : ℚ) (hj0 : 0 ≤ j) (hj1 : j ≤ 1) (rs : List ℚ) :
    ∀ prev : ℚ, 0 ≤ prev →
      List.Chain (fun a d => a * 2 * (1 - j) ≤ d ∧ d ≤ a * 2 * (1 + j)) prev
        (retryDelays j prev rs) := by
  induction rs with
  | nil => intro prev _; exact List.Chain.nil
  | cons r rest ih =>
    intro prev hprev
    have hb := retry_delay_bounds j r prev hj0 hprev
    have h1 := neg_le_clampJitter j r
    have hnext : 0 ≤ prev * 2 * (1 + clampJitter j r) :=
      mul_nonneg (by linarith) (by linarith)
    exact List.Chain.cons hb (ih _ hnext)

/-- Timer expirations without an acknowledgment, while the retry count allows:
every one retransmits after the scheduled delay and counts one retry. -/
theorem exchangeRun_timers (p : RetryPolicy) (rs : List ℚ) :
    ∀ ex : Exchange, ex.state = .AwaitingAck → ex.retries + rs.length ≤ p.maxRetries →
      exchangeRun p ex (rs.map ExchangeEvent.timerFired)
        = ({ state := .AwaitingAck, retries := ex.retries + rs.length,
             delay := (retryDelays p.jitter ex.delay rs).getLastD ex.delay },
            (retryDelays p.jitter ex.delay rs).map ExchangeAction.retransmit) := by
  induction rs with
  | nil =>
    intro ex hs _
    cases ex
    simp_all [exchangeRun, retryDelays]
  | cons r rest ih =>
    intro ex hs hle
    simp only [List.length_cons] at hle
    have hlt : ex.retries < p.maxRetries := by omega
    have hstep : exchangeStep p ex (.timerFired r)
        = ({ state := .AwaitingAck, retries := ex.retries + 1,
             delay := ex.delay * 2 * (1 + clampJitter p.jitter r) },
           .retransmit (ex.delay * 2 * (1 + clampJitter p.jitter r))) := by
      simp [exchangeStep, hs, hlt]
    simp only [List.map_cons, exchangeRun, hstep]
    rw [ih _ rfl (by simp only; omega)]
    simp only [retryDelays, List.map_cons, List.getLastD_cons, List.length_cons]
    congr 2
    omega

/-- C13: with `0 ≤ T` and the jitter factor in `[0, 1]`.  For an Exchange
reached from a fresh one by any sequence of events the retransmission counter
is at most the maximum retry count, a timer firing while awaiting the
acknowledgment below the maximum retransmits, every retransmission increments
the counter and uses a delay within `[prev*2*(1-jitter), prev*2*(1+jitter)]`,
a timer firing at the maximum moves the Exchange to `TimedOut` and reports
`ExchangeTimedOut`, and a `TimedOut` Exchange takes no further action.  For a
confirmable message that is never acknowledged: after the send, each of the
first `maxRetries` timer expirations retransmits and counts one retry, the
next one moves the Exchange to `TimedOut` and reports `ExchangeTimedOut`, and
whatever follows is met with silence; the delays used form a chain within the
jitter bounds starting at `T`. -/
theorem C13_retransmission_bounded (p : RetryPolicy) (hT : 0 ≤ p.initialTimeout)
    (hj0 : 0 ≤ p.jitter) (hj1 : p.jitter ≤ 1) (evs : List ExchangeEvent) (ex : Exchange)
    (hex : ex = (exchangeRun p idleExchange evs).1) :
    ex.retries ≤ p.maxRetries ∧
      (∀ (ev : ExchangeEvent) (d : ℚ), (exchangeStep p ex ev).2 = .retransmit d →
        ex.retries < p.maxRetries ∧
          (exchangeStep p ex ev).1.retries = ex.retries + 1 ∧
          (exchangeStep p ex ev).1.delay = d ∧
          ex.delay * 2 * (1 - p.jitter) ≤ d ∧ d ≤ ex.delay * 2 * (1 + p.jitter)) ∧
      (ex.state = .AwaitingAck → ex.retries < p.maxRetries → ∀ r : ℚ,
        (exchangeStep p ex (.timerFired r)).2
          = .retransmit (ex.delay * 2 * (1 + clampJitter p.jitter r))) ∧
      (ex.state = .AwaitingAck → ex.retries = p.maxRetries → ∀ r : ℚ,
        exchangeStep p ex (.timerFired r)
          = ({ ex with state := .TimedOut }, .reportExchangeTimedOut)) ∧
      (ex.state = .TimedOut → ∀ evs2 : List ExchangeEvent,
        exchangeRun p ex evs2 = (ex, evs2.map (fun _ => ExchangeAction.silent))) ∧
      (∀ rs : List ℚ, rs.length ≤ p.maxRetries →
        exchangeRun p idleExchange (.send :: rs.map ExchangeEvent.timerFired)
          = ({ state := .AwaitingAck, retries := rs.length,
               delay := (retryDelays p.jitter p.initialTimeout rs).getLastD p.initialTimeout },
             .transmit p.initialTimeout ::
               (retryDelays p.jitter p.initialTimeout rs).map ExchangeAction.retransmit)) ∧
      (∀ rs : List ℚ, rs.length = p.maxRetries → ∀ (r : ℚ) (evs2 : List ExchangeEvent),
        exchangeRun p idleExchange
            (.send :: (rs.map ExchangeEvent.timerFired ++ .timerFired r :: evs2))
          = ({ state := .TimedOut, retries := p.maxRetries,
               delay := (retryDelays p.jitter p.initialTimeout rs).getLastD p.initialTimeout },
             .transmit p.initialTimeout ::
               ((retryDelays p.jitter p.initialTimeout rs).map ExchangeAction.retransmit ++
                 .reportExchangeTimedOut ::
                   evs2.map (fun _ => ExchangeAction.silent)))) ∧
      (∀ rs : List ℚ,
        (retryDelays p.jitter p.initialTimeout rs).length = rs.length ∧
          List.Chain (fun a d => a * 2 * (1 - p.jitter) ≤ d ∧ d ≤ a * 2 * (1 + p.jitter))
            p.initialTimeout (retryDelays p.jitter p.initialTimeout rs)) := by
  have hinv : ex.retries ≤ p.maxRetries ∧ 0 ≤ ex.delay := by
    rw [hex]
    exact exchangeRun_inv p hT hj1 evs idleExchange
      ⟨Nat.zero_le _, by simp [idleExchange]⟩
  have hsend : exchangeStep p idleExchange .send
      = ({ state := .AwaitingAck, retries := 0, delay := p.initialTimeout },
         .transmit p.initialTimeout) := by
    simp [exchangeStep, idleExchange]
  have htimers : ∀ rs : List ℚ, rs.length ≤ p.maxRetries →
      exchangeRun p { state := .AwaitingAck, retries := 0, delay := p.initialTimeout }
          (rs.map ExchangeEvent.timerFired)
        = ({ state := .AwaitingAck, retries := rs.length,
             delay := (retryDelays p.jitter p.initialTimeout rs).getLastD p.initialTimeout },
           (retryDelays p.jitter p.initialTimeout rs).map ExchangeAction.retransmit) := by
    intro rs hle
    have h := exchangeRun_timers p rs
      { state := .AwaitingAck, retries := 0, delay := p.initialTimeout } rfl
      (by simp only; omega)
    simpa using h
  refine ⟨hinv.1, ?_, ?_, ?_, ?_, ?_, ?_, ?_⟩
  · intro ev d hd
    cases ev with
    | timerFired r =>
      by_cases hs : ex.state = .AwaitingAck
      · by_cases hlt : ex.retries < p.maxRetries
        · have hstep : exchangeStep p ex (.timerFired r)
              = ({ state := .AwaitingAck, retries := ex.retries + 1,
                   delay := ex.delay * 2 * (1 + clampJitter p.jitter r) },
                 .retransmit (ex.delay * 2 * (1 + clampJitter p.jitter r))) := by
            simp [exchangeStep, hs, hlt]
          rw [hstep] at hd ⊢
          have hb := retry_delay_bounds p.jitter r ex.delay hj0 hinv.2
          simp only [ExchangeAction.retransmit.injEq] at hd
          subst hd
          exact ⟨hlt, rfl, rfl, hb.1, hb.2⟩
        · simp [exchangeStep, hs, hlt] at hd
      · cases hs2 : ex.state <;> simp_all [exchangeStep]
    | send => cases hs : ex.state <;> simp [exchangeStep, hs] at hd
    | ackReceived => cases hs : ex.state <;> simp [exchangeStep, hs] at hd
    | responseReceived => cases hs : ex.state <;> simp [exchangeStep, hs] at hd
    | cancel =>
      cases hs : ex.state <;> simp [exchangeStep, hs, ExchangeState.terminal] at hd
  · intro hs hlt r
    simp [exchangeStep, hs, hlt]
  · intro hs heq r
    simp [exchangeStep, hs, heq]
  · intro hs evs2
    exact exchangeRun_terminal p evs2 ex (by simp [hs, ExchangeState.terminal])
  · intro rs hle
    simp only [exchangeRun, hsend, htimers rs hle]
  · intro rs hlen r evs2
    have hfire : exchangeStep p
        { state := .AwaitingAck, retries := rs.length,
          delay := (retryDelays p.jitter p.initialTimeout rs).getLastD p.initialTimeout }
        (.timerFired r)
        = ({ state := .TimedOut, retries := rs.length,
             delay := (retryDelays p.jitter p.initialTimeout rs).getLastD p.initialTimeout },
           .reportExchangeTimedOut) := by
      simp [exchangeStep, hlen]
    have hterm := exchangeRun_terminal p evs2
      { state := .TimedOut, retries := rs.length,
        delay := (retryDelays p.jitter p.initialTimeout rs).getLastD p.initialTimeout } rfl
    have htim := htimers rs (Nat.le_of_eq hlen)
    rw [hlen] at hfire hterm htim
    simp only [exchangeRun, hsend, exchangeRun_append, htim, hfire, hterm]
  · intro rs
    exact ⟨retryDelays_length p.jitter rs p.initialTimeout,
      retryDelays_chain p.jitter hj0 hj1 rs p.initialTimeout hT⟩

/-- Witness for C13: with `T = 2`, jitter `1/2` and four retries, a message
that is never acknowledged is transmitted, retransmitted four times after the
delays 4, 12, 12 and 24, then reported as `ExchangeTimedOut`; the timer and
the late acknowledgment that follow are met with silence. -/
theorem C13_retransmission_bounded_witness :
    (0 : ℚ) ≤ samplePolicy.initialTimeout ∧ (0 : ℚ) ≤ samplePolicy.jitter ∧
      samplePolicy.jitter ≤ 1 ∧
      exchangeRun samplePolicy idleExchange
          [.send, .timerFired 0, .timerFired 1, .timerFired (-1), .timerFired 0,
            .timerFired 0, .timerFired 0, .ackReceived]
        = ({ state := .TimedOut, retries := 4, delay := 24 },
           [.transmit 2, .retransmit 4, .retransmit 12, .retransmit 12, .retransmit 24,
             .reportExchangeTimedOut, .silent, .silent]) := by
  refine ⟨by norm_num [samplePolicy], by norm_num [samplePolicy],
    by norm_num [samplePolicy], ?_⟩
  have h := (C13_retransmission_bounded samplePolicy (by norm_num [samplePolicy])
    (by norm_num [samplePolicy]) (by norm_num [samplePolicy]) [] idleExchange
    rfl).2.2.2.2.2.2.1 [0, 1, -1, 0] rfl 0 [.timerFired 0, .ackReceived]
  have hd : retryDelays samplePolicy.jitter samplePolicy.initialTimeout [0, 1, -1, 0]
      = [4, 12, 12, 24] := by
    norm_num [retryDelays, samplePolicy, clampJitter]
  rw [hd] at h
  simpa [samplePolicy] using h

/-- The nibble of an encoded field fits in four bits. -/
theorem encodeField_nibble_lt (v : Nat) : (encodeField v).1 < 16 := by
  unfold encodeField
  split
  · simp only; omega
  · split <;> simp

/-- Decoding an encoded header field gives the field back and leaves what
follows it. -/
theorem decodeField_encodeField (v : Nat) (hv : v < 65805) (rest : List Nat) :
    decodeField (encodeField v).1 ((encodeField v).2 ++ rest) = .ok (v, rest) := by
  unfold encodeField
  by_cases h1 : v < 13
  · simp [h1, decodeField]
  · by_cases h2 : v < 269
    · simp only [h1, h2, if_false, if_true, decodeField, List.singleton_append]
      simp only [Nat.lt_irrefl, if_false, if_true]
      have : v - 13 + 13 = v := by omega
      simp [this]
    · simp only [h1, h2, if_false, decodeField, List.cons_append, List.nil_append]
      have : (v - 269) / 256 * 256 + (v - 269) % 256 + 269 = v := by omega
      simp [this]

/-- Round trip from any predecessor code, with enough fuel. -/
theorem decodeFrom_encodeFrom (opts : List CoapOption) :
    ∀ (prev fuel : Nat), validFrom prev opts = true →
      (encodeFrom prev opts).length ≤ fuel →
      decodeFrom fuel prev (encodeFrom prev opts) = .ok opts := by
  induction opts with
  | nil => intro prev fuel _ _; cases fuel <;> simp [encodeFrom, decodeFrom]
  | cons o os ih =>
    intro prev fuel hvalid hfuel
    simp only [validFrom, Bool.and_eq_true, decide_eq_true_eq] at hvalid
    obtain ⟨⟨⟨⟨hle, hnum⟩, hlen⟩, _⟩, hrest⟩ := hvalid
    have hdl : (encodeField o.value.length).1 < 16 := encodeField_nibble_lt _
    have hdelta : o.number - prev < 65805 := by omega
    have hlen2 : o.value.length < 65805 := by omega
    simp only [encodeFrom, encodeOption, List.cons_append, List.length_cons,
      List.length_append] at hfuel ⊢
    cases fuel with
    | zero => omega
    | succ f =>
      have hq : ((encodeField (o.number - prev)).1 * 16 + (encodeField o.value.length).1) / 16
          = (encodeField (o.number - prev)).1 := by omega
      have hr : ((encodeField (o.number - prev)).1 * 16 + (encodeField o.value.length).1) % 16
          = (encodeField o.value.length).1 := by omega
      have hd1 := decodeField_encodeField (o.number - prev) hdelta
        ((encodeField o.value.length).2 ++ (o.value ++ encodeFrom o.number os))
      have hd2 := decodeField_encodeField o.value.length hlen2
        (o.value ++ encodeFrom o.number os)
      have hnumber : prev + (o.number - prev) = o.number := by omega
      have hih := ih o.number f hrest (by omega)
      simp only [decodeFrom, hq, hr, List.append_assoc, hd1, hd2, hnumber]
      simp [hih]

/-- C12: for every valid option sequence (codes in ascending order), decoding
the bytes produced by encoding it succeeds and returns exactly the original
sequence. -/
theorem C12_option_codec_roundtrip (opts : List CoapOption)
    (hvalid : validOptions opts = true) :
    decode (encode opts) = .ok opts :=
  decodeFrom_encodeFrom opts 0 (encode opts).length hvalid (Nat.le_refl _)

/-- Witness for C12 on five options that exercise every header form. -/
theorem C12_option_codec_roundtrip_witness :
    validOptions sampleOptions = true ∧
      decode (encode sampleOptions) = .ok sampleOptions :=
  ⟨by decide, C12_option_codec_roundtrip sampleOptions (by decide)⟩

end AnjayConfig
